import Mathlib

/-!
Verification development for the GROMACS 2023.2 neighbor-search and
short-range nonbonded force-kernel subsystem.

The definitions below are shallow embeddings of:
  * the nblib setup helpers in `include/stat.h`
    (`checkKernelSetup`, `createKernelSetupCPU`, `createNonBondedParameters`);
  * the NBNxM SIMD inner-loop body (`part_003`) and the load/store helper
    `pairCountWithinCutoff` (`part_002`);
  * the PME GPU grid halo-exchange kernels and host orchestration in
    `src/gromacs/ewald/pme_gpu_grid_sycl.cpp`.

Machine reals are modelled as `ℚ` (the kernels under study use only ring
operations, comparisons and `max` outside of the uninterpreted helper
functions, so exact arithmetic is a faithful model of the data flow).
-/

namespace Gromacs

/-! ## nblib setup helpers (`include/stat.h`) -/

/-- The `SimdKernels` request enum from `nblib/kerneloptions.h` (the values are
declared there in the order `SimdAuto, SimdNo, Simd4XM, Simd2XMM, Count`; the
header itself is not part of this source subset, only its use sites are). -/
inductive SimdKernels where
  | SimdAuto
  | SimdNo
  | Simd4XM
  | Simd2XMM
  | Count
  deriving DecidableEq, Repr

/-- The subset of `Nbnxm::KernelType` values reachable from
`translateBenchmarkEnum` (same declaration order as in the real header:
`NotSet, Cpu4x4_PlainC, Cpu4xN_Simd_4xN, Cpu4xN_Simd_2xNN, ...`). -/
inductive KernelType where
  | NotSet
  | Cpu4x4_PlainC
  | Cpu4xN_Simd_4xN
  | Cpu4xN_Simd_2xNN
  deriving DecidableEq, Repr

/-- `EwaldExclusionType` of a kernel setup. -/
inductive EwaldExclusionType where
  | Table
  | Analytical
  deriving DecidableEq, Repr

/-- `Nbnxm::KernelSetup` as filled in by `createKernelSetupCPU`. -/
structure KernelSetup where
  kernelType : KernelType
  ewaldExclusionType : EwaldExclusionType
  deriving DecidableEq, Repr

/-- Compile-time configuration relevant to `checkKernelSetup`: the values of
the preprocessor symbols `GMX_SIMD`, `GMX_NBNXN_SIMD_4XN`, `GMX_NBNXN_SIMD_2XNN`. -/
structure BuildConfig where
  gmxSimd : Bool
  haveSimd4xN : Bool
  haveSimd2xNN : Bool
  deriving DecidableEq, Repr

/-- The fields of `NBKernelOptions` consumed by `createKernelSetupCPU`. -/
structure NBKernelOptions where
  nbnxmSimd : SimdKernels
  useTabulatedEwaldCorr : Bool
  deriving DecidableEq, Repr

/-- `translateBenchmarkEnum` (`stat.h:211`): reinterprets the integer value of
the `SimdKernels` request as an `Nbnxm::KernelType`
(`SimdAuto ↦ 0 ↦ NotSet`, `SimdNo ↦ 1 ↦ Cpu4x4_PlainC`,
`Simd4XM ↦ 2 ↦ Cpu4xN_Simd_4xN`, `Simd2XMM ↦ 3 ↦ Cpu4xN_Simd_2xNN`). -/
def translateBenchmarkEnum : SimdKernels → KernelType
  | .SimdAuto => .NotSet
  | .SimdNo => .Cpu4x4_PlainC
  | .Simd4XM => .Cpu4xN_Simd_4xN
  | .Simd2XMM => .Cpu4xN_Simd_2xNN
  | .Count => .NotSet

/-- `checkKernelSetup` (`stat.h:217`): throws `InputException` for `SimdAuto`
or `Count`, and for SIMD kernel variants not enabled in the build. -/
def checkKernelSetup (cfg : BuildConfig) (nbnxmSimd : SimdKernels) : Except String Unit :=
  if nbnxmSimd = .Count ∨ nbnxmSimd = .SimdAuto then
    .error "Need a valid kernel SIMD type"
  else if (nbnxmSimd ≠ .SimdNo ∧ ¬cfg.gmxSimd)
          ∨ (¬cfg.haveSimd4xN ∧ nbnxmSimd = .Simd4XM)
          ∨ (¬cfg.haveSimd2xNN ∧ nbnxmSimd = .Simd2XMM) then
    .error "The requested SIMD kernel was not set up at configuration time"
  else
    .ok ()

/-- `createKernelSetupCPU` (`stat.h:237`): validates the request via
`checkKernelSetup`, then fills in the kernel setup. -/
def createKernelSetupCPU (cfg : BuildConfig) (options : NBKernelOptions) :
    Except String KernelSetup := do
  let _ ← checkKernelSetup cfg options.nbnxmSimd
  let kernelType := translateBenchmarkEnum options.nbnxmSimd
  let ewaldExclusionType :=
    if kernelType = .Cpu4x4_PlainC then
      EwaldExclusionType.Table
    else if options.useTabulatedEwaldCorr then
      EwaldExclusionType.Table
    else
      EwaldExclusionType.Analytical
  return { kernelType := kernelType, ewaldExclusionType := ewaldExclusionType }

instance {ε α : Type _} [DecidableEq ε] [DecidableEq α] : DecidableEq (Except ε α) :=
  fun a b =>
    match a, b with
    | .ok x, .ok y =>
        if h : x = y then isTrue (by rw [h]) else isFalse (by intro hc; cases hc; exact h rfl)
    | .error x, .error y =>
        if h : x = y then isTrue (by rw [h]) else isFalse (by intro hc; cases hc; exact h rfl)
    | .ok _, .error _ => isFalse (by intro hc; cases hc)
    | .error _, .ok _ => isFalse (by intro hc; cases hc)

/-- A requested SIMD kernel type is a valid, build-supported choice. -/
def validKernelRequest (cfg : BuildConfig) (nbnxmSimd : SimdKernels) : Prop :=
  (nbnxmSimd = .SimdNo)
  ∨ (nbnxmSimd = .Simd4XM ∧ cfg.gmxSimd ∧ cfg.haveSimd4xN)
  ∨ (nbnxmSimd = .Simd2XMM ∧ cfg.gmxSimd ∧ cfg.haveSimd2xNN)

instance (cfg : BuildConfig) (s : SimdKernels) : Decidable (validKernelRequest cfg s) := by
  unfold validKernelRequest
  infer_instance

/-! ## `createNonBondedParameters` (`stat.h:273`) -/

/-- `ParticleType`: only the name is consumed by `createNonBondedParameters`. -/
structure ParticleType where
  name : String
  deriving DecidableEq, Repr

/-- `NonBondedInteractionMap`: `getC6`/`getC12` lookups by pair of type names. -/
structure NonBondedInteractionMap where
  getC6 : String → String → ℚ
  getC12 : String → String → ℚ

/-- `createNonBondedParameters` (`stat.h:273`): for every ordered pair of
particle types pushes `getC6 * 6` then `getC12 * 12`. -/
def createNonBondedParameters (particleTypes : List ParticleType)
    (nonBondedInteractionMap : NonBondedInteractionMap) : List ℚ :=
  particleTypes.flatMap fun particleType1 =>
    particleTypes.flatMap fun particleType2 =>
      [nonBondedInteractionMap.getC6 particleType1.name particleType2.name * 6,
       nonBondedInteractionMap.getC12 particleType1.name particleType2.name * 12]

/-- Demo particle types for witnesses. -/
def demoTypes : List ParticleType := [⟨"O"⟩, ⟨"H"⟩]

/-- Demo interaction map for witnesses. -/
def demoMap : NonBondedInteractionMap :=
  { getC6 := fun _ _ => 5, getC12 := fun _ _ => 7 }

/-! ## NBNxM SIMD inner loop (`part_003`)

The inner-loop body is a template over SIMD registers.  Each SIMD register
holds one i-atom paired against a row of j-atoms; all register operations act
lane-wise, so the embedding models one lane: every `SimdReal` becomes one `ℚ`
per i-register index `i : Fin nR`, and the single j-atom of the lane becomes
scalar data.  `selectByMask x m` is `if m then x else 0`, `norm2 x y z` is
`x*x + y*y + z*z` (the GROMACS SIMD reference semantics).  The helper objects
that live outside this file (`coulombCalculator`, `ljCalculator`,
`diagonalMasker.maskArray`, `invsqrt`, `addLennardJonesEwaldCorrections`) are
kept uninterpreted as fields of `KernelExternal`; the theorems hold for every
choice of these helpers. -/

/-- `ILJInteractions`: which i-registers compute Lennard-Jones interactions. -/
inductive ILJInteractions where
  | None
  | Half
  | Full
  deriving DecidableEq, Repr

/-- The compile-time template parameters of the inner loop. -/
structure KernelFlags where
  iLJInteractions : ILJInteractions
  calculateCoulombInteractions : Bool
  needToCheckExclusions : Bool
  haveLJEwaldGeometric : Bool
  calculateEnergies : Bool
  haveVdwCutoffCheck : Bool
  /-- `coulombType == KernelCoulombType::RF` (`part_003:182`). -/
  coulombIsRF : Bool
  deriving DecidableEq, Repr

/-- `c_nRLJ` (`part_003:47`): number of i-registers with LJ interactions. -/
def c_nRLJ (nR : ℕ) (f : KernelFlags) : ℕ :=
  match f.iLJInteractions with
  | .None => 0
  | .Half => nR / 2
  | .Full => nR

/-- `c_haveExclusionForces` (`part_003:56`). -/
def c_haveExclusionForces (f : KernelFlags) : Bool :=
  (f.calculateCoulombInteractions || f.haveLJEwaldGeometric) && f.needToCheckExclusions

/-- Helper functions called by the inner loop whose definitions live outside
this source subset; they are kept fully uninterpreted. -/
structure KernelExternal (nR : ℕ) where
  /-- `invsqrt` (`part_003:120`): the SIMD reciprocal square root. -/
  invsqrt : ℚ → ℚ
  /-- `coulombCalculator.force` (`part_003:168`), applied per register to
  `(rSquared, rInv, rInvExcl, withinCutoff)`. -/
  coulombForce : ℚ → ℚ → ℚ → Bool → ℚ
  /-- `coulombCalculator.forceAndCorrectionEnergy` (`part_003:177`): returns
  the force and the potential correction to subtract from `1/r`. -/
  coulombForceAndCorrectionEnergy : ℚ → ℚ → ℚ → Bool → ℚ × ℚ
  /-- `ewaldShift` (`part_003:187`). -/
  ewaldShift : ℚ
  /-- `ljCalculator.forceC6C12` / `forceSigmaEpsilon` (`part_003:270,283`)
  per register: `(rSquared, rInv, rInvSquared, interact, withinVdwCutoff)`
  to `(frLJ, vLJ)`; the loaded `c6`/`c12`/`sigma`/`epsilon` parameters are
  absorbed into the per-register function. -/
  ljForce : Fin nR → ℚ → ℚ → ℚ → Bool → Bool → ℚ × ℚ
  /-- `addLennardJonesEwaldCorrections` (`part_003:302`) per register:
  `(rSquared, rInvSquared, interact, withinCutoff, (frLJ, vLJ))` to the
  corrected `(frLJ, vLJ)`. -/
  ljEwaldCorrection : Fin nR → ℚ → ℚ → Bool → Bool → ℚ × ℚ → ℚ × ℚ
  /-- `diagonalMasker.maskArray ci_sh cj` (`part_003:100`): the register
  lanes kept by (sub-)diagonal masking for the current cluster pair. -/
  diagMask : Fin nR → Bool

/-- The per-lane runtime inputs of one inner-loop iteration. -/
structure KernelInput (nR : ℕ) where
  /-- i-atom coordinates per register (`ixV`, `iyV`, `izV`). -/
  ixV : Fin nR → ℚ
  iyV : Fin nR → ℚ
  izV : Fin nR → ℚ
  /-- i-atom charges (`chargeIV`). -/
  chargeIV : Fin nR → ℚ
  /-- j-atom data of this lane (`jx_S`, `jy_S`, `jz_S`, `jq_S`). -/
  jx : ℚ
  jy : ℚ
  jz : ℚ
  jq : ℚ
  /-- interaction (non-exclusion) mask lanes (`interactV`, `part_003:76`). -/
  interactV : Fin nR → Bool
  /-- i-force accumulators on entry (`forceIXV`, `forceIYV`, `forceIZV`). -/
  forceIXV : Fin nR → ℚ
  forceIYV : Fin nR → ℚ
  forceIZV : Fin nR → ℚ
  /-- j-force array entries for this lane on entry (`f[ajx..]`). -/
  fjx : ℚ
  fjy : ℚ
  fjz : ℚ
  /-- energy accumulators on entry (`vctot_S`, `Vvdwtot_S`). -/
  vctot : ℚ
  Vvdwtot : ℚ
  cutoffSquared : ℚ
  minDistanceSquared : ℚ
  vdwCutoffSquared : ℚ

/-- `dxV` (`part_003:85`). -/
def dxV {nR : ℕ} (inp : KernelInput nR) (i : Fin nR) : ℚ := inp.ixV i - inp.jx

/-- `dyV` (`part_003:86`). -/
def dyV {nR : ℕ} (inp : KernelInput nR) (i : Fin nR) : ℚ := inp.iyV i - inp.jy

/-- `dzV` (`part_003:87`). -/
def dzV {nR : ℕ} (inp : KernelInput nR) (i : Fin nR) : ℚ := inp.izV i - inp.jz

/-- `rSquaredV` before clamping (`part_003:90`): `norm2 dx dy dz`. -/
def rSquaredV {nR : ℕ} (inp : KernelInput nR) (i : Fin nR) : ℚ :=
  dxV inp i * dxV inp i + dyV inp i * dyV inp i + dzV inp i * dzV inp i

/-- The cut-off check (`part_003:93`): `rSquaredV[i] < cutoffSquared`. -/
def withinCutoff0V {nR : ℕ} (inp : KernelInput nR) (i : Fin nR) : Bool :=
  decide (rSquaredV inp i < inp.cutoffSquared)

/-- The cut-off mask after exclusion handling (`part_003:95..107`): with
exclusion forces only the (sub-)diagonal is removed; without them all
excluded pairs are removed. -/
def withinCutoffV {nR : ℕ} (f : KernelFlags) (e : KernelExternal nR)
    (inp : KernelInput nR) (i : Fin nR) : Bool :=
  if f.needToCheckExclusions then
    if c_haveExclusionForces f then withinCutoff0V inp i && e.diagMask i
    else withinCutoff0V inp i && inp.interactV i
  else withinCutoff0V inp i

/-- `rSquaredV` after the overflow clamp (`part_003:115`):
`max(rSquaredV[i], minDistanceSquared)`. -/
def rSquaredClampedV {nR : ℕ} (inp : KernelInput nR) (i : Fin nR) : ℚ :=
  max (rSquaredV inp i) inp.minDistanceSquared

/-- `rInvV` as produced by `invsqrt` (`part_003:120`). -/
def rInvRawV {nR : ℕ} (e : KernelExternal nR) (inp : KernelInput nR) (i : Fin nR) : ℚ :=
  e.invsqrt (rSquaredClampedV inp i)

/-- `qqV` (`part_003:133`), loaded only when Coulomb interactions are on. -/
def qqV {nR : ℕ} (f : KernelFlags) (inp : KernelInput nR) (i : Fin nR) : ℚ :=
  if f.calculateCoulombInteractions then inp.chargeIV i * inp.jq else 0

/-- `rInvV` after the cut-off mask (`part_003:137`):
`selectByMask(rInvV[i], withinCutoffV[i])`. -/
def rInvV {nR : ℕ} (f : KernelFlags) (e : KernelExternal nR)
    (inp : KernelInput nR) (i : Fin nR) : ℚ :=
  if withinCutoffV f e inp i then rInvRawV e inp i else 0

/-- `rInvSquaredV` (`part_003:139`). -/
def rInvSquaredV {nR : ℕ} (f : KernelFlags) (e : KernelExternal nR)
    (inp : KernelInput nR) (i : Fin nR) : ℚ :=
  rInvV f e inp i * rInvV f e inp i

/-- `rInvExclV` (`part_003:154..163`): `1/r` with excluded pairs masked out
when exclusion forces are computed, plain `rInvV` otherwise. -/
def rInvExclV {nR : ℕ} (f : KernelFlags) (e : KernelExternal nR)
    (inp : KernelInput nR) (i : Fin nR) : ℚ :=
  if c_haveExclusionForces f then
    (if inp.interactV i then rInvV f e inp i else 0)
  else rInvV f e inp i

/-- The pair returned by the Coulomb calculator (`part_003:166..178`): the
force (times `r`) and, when energies are requested, the potential
correction. -/
def coulombPairV {nR : ℕ} (f : KernelFlags) (e : KernelExternal nR)
    (inp : KernelInput nR) (i : Fin nR) : ℚ × ℚ :=
  if f.calculateEnergies then
    e.coulombForceAndCorrectionEnergy (rSquaredClampedV inp i) (rInvV f e inp i)
      (rInvExclV f e inp i) (withinCutoffV f e inp i)
  else
    (e.coulombForce (rSquaredClampedV inp i) (rInvV f e inp i)
      (rInvExclV f e inp i) (withinCutoffV f e inp i), 0)

/-- `frCoulombV` (`part_003:168..180`): calculator force scaled by `qq`
(zero when Coulomb interactions are compiled out). -/
def frCoulombV {nR : ℕ} (f : KernelFlags) (e : KernelExternal nR)
    (inp : KernelInput nR) (i : Fin nR) : ℚ :=
  if f.calculateCoulombInteractions then qqV f inp i * (coulombPairV f e inp i).1 else 0

/-- `vCoulombCorrectionV` after the Ewald-shift addition (`part_003:182..195`). -/
def vCoulombCorrectionV {nR : ℕ} (f : KernelFlags) (e : KernelExternal nR)
    (inp : KernelInput nR) (i : Fin nR) : ℚ :=
  if ¬f.coulombIsRF then
    (coulombPairV f e inp i).2
      + (if f.needToCheckExclusions then
          (if inp.interactV i then e.ewaldShift else 0)
        else e.ewaldShift)
  else (coulombPairV f e inp i).2

/-- `vCoulombV` (`part_003:198..203`): `qq * (rInvExcl - correction)` masked
for cut-off and diagonal (zero when energies or Coulomb are compiled out). -/
def vCoulombV {nR : ℕ} (f : KernelFlags) (e : KernelExternal nR)
    (inp : KernelInput nR) (i : Fin nR) : ℚ :=
  if f.calculateCoulombInteractions ∧ f.calculateEnergies then
    (if withinCutoffV f e inp i then
      qqV f inp i * (rInvExclV f e inp i - vCoulombCorrectionV f e inp i)
    else 0)
  else 0

/-- `withinVdwCutoffV` (`part_003:218`), computed from the clamped
`rSquaredV` (the clamp at line 115 reassigns `rSquaredV`). -/
def withinVdwCutoffV {nR : ℕ} (inp : KernelInput nR) (i : Fin nR) : Bool :=
  decide (rSquaredClampedV inp i < inp.vdwCutoffSquared)

/-- The LJ calculator output (`part_003:270,283`). -/
def ljPair0V {nR : ℕ} (f : KernelFlags) (e : KernelExternal nR)
    (inp : KernelInput nR) (i : Fin nR) : ℚ × ℚ :=
  e.ljForce i (rSquaredClampedV inp i) (rInvV f e inp i) (rInvSquaredV f e inp i)
    (inp.interactV i) (withinVdwCutoffV inp i)

/-- `vLJV` after removing the potential shift for excluded pairs
(`part_003:287..294`). -/
def vLJ1V {nR : ℕ} (f : KernelFlags) (e : KernelExternal nR)
    (inp : KernelInput nR) (i : Fin nR) : ℚ :=
  if f.calculateEnergies && f.needToCheckExclusions then
    (if inp.interactV i then (ljPair0V f e inp i).2 else 0)
  else (ljPair0V f e inp i).2

/-- `(frLJV, vLJV)` after the LJ-PME geometric corrections
(`part_003:296..304`). -/
def ljPair2V {nR : ℕ} (f : KernelFlags) (e : KernelExternal nR)
    (inp : KernelInput nR) (i : Fin nR) : ℚ × ℚ :=
  if f.haveLJEwaldGeometric then
    e.ljEwaldCorrection i (rSquaredClampedV inp i) (rInvSquaredV f e inp i)
      (inp.interactV i) (withinCutoffV f e inp i) ((ljPair0V f e inp i).1, vLJ1V f e inp i)
  else ((ljPair0V f e inp i).1, vLJ1V f e inp i)

/-- `frLJV` after the VdW cut-off mask (`part_003:306..315`), restricted to
the `c_nRLJ` registers that exist in the source arrays. -/
def frLJV {nR : ℕ} (f : KernelFlags) (e : KernelExternal nR)
    (inp : KernelInput nR) (i : Fin nR) : ℚ :=
  if f.iLJInteractions ≠ ILJInteractions.None ∧ i.val < c_nRLJ nR f then
    (if f.haveVdwCutoffCheck then
      (if withinVdwCutoffV inp i then (ljPair2V f e inp i).1 else 0)
    else (ljPair2V f e inp i).1)
  else 0

/-- `vLJV` after removing the potential shift beyond the cut-off
(`part_003:317..325`), restricted to the `c_nRLJ` registers (zero when LJ or
energies are compiled out). -/
def vLJV {nR : ℕ} (f : KernelFlags) (e : KernelExternal nR)
    (inp : KernelInput nR) (i : Fin nR) : ℚ :=
  if f.iLJInteractions ≠ ILJInteractions.None ∧ f.calculateEnergies = true
      ∧ i.val < c_nRLJ nR f then
    (if (if f.haveVdwCutoffCheck then withinVdwCutoffV inp i else withinCutoffV f e inp i) then
      (ljPair2V f e inp i).2
    else 0)
  else 0

/-- `fScalarV` (`part_003:417..444`): the force times `1/r²`; register ranges
follow the source loops (a range the source never writes is zero here). -/
def fScalarV {nR : ℕ} (f : KernelFlags) (e : KernelExternal nR)
    (inp : KernelInput nR) (i : Fin nR) : ℚ :=
  if f.iLJInteractions ≠ ILJInteractions.None then
    if f.calculateCoulombInteractions then
      (if i.val < c_nRLJ nR f then
        rInvSquaredV f e inp i * (frCoulombV f e inp i + frLJV f e inp i)
      else rInvSquaredV f e inp i * frCoulombV f e inp i)
    else
      (if i.val < c_nRLJ nR f then rInvSquaredV f e inp i * frLJV f e inp i else 0)
  else rInvSquaredV f e inp i * frCoulombV f e inp i

/-- `txV` (`part_003:447`). -/
def txV {nR : ℕ} (f : KernelFlags) (e : KernelExternal nR)
    (inp : KernelInput nR) (i : Fin nR) : ℚ :=
  fScalarV f e inp i * dxV inp i

/-- `tyV` (`part_003:448`). -/
def tyV {nR : ℕ} (f : KernelFlags) (e : KernelExternal nR)
    (inp : KernelInput nR) (i : Fin nR) : ℚ :=
  fScalarV f e inp i * dyV inp i

/-- `tzV` (`part_003:449`). -/
def tzV {nR : ℕ} (f : KernelFlags) (e : KernelExternal nR)
    (inp : KernelInput nR) (i : Fin nR) : ℚ :=
  fScalarV f e inp i * dzV inp i

/-- The per-lane state after one inner-loop iteration. -/
structure KernelResult (nR : ℕ) where
  forceIXV : Fin nR → ℚ
  forceIYV : Fin nR → ℚ
  forceIZV : Fin nR → ℚ
  fjx : ℚ
  fjy : ℚ
  fjz : ℚ
  vctot : ℚ
  Vvdwtot : ℚ

/-- One iteration of the inner loop (`part_003:44..467`): increments the
i-force accumulators (`part_003:452..454`), decrements the j-force by the
register sums (`part_003:457..466`), and accumulates the masked energies
(`part_003:361..413`, plain accumulation path). -/
def simdInnerLoop {nR : ℕ} (f : KernelFlags) (e : KernelExternal nR)
    (inp : KernelInput nR) : KernelResult nR where
  forceIXV := fun i => inp.forceIXV i + txV f e inp i
  forceIYV := fun i => inp.forceIYV i + tyV f e inp i
  forceIZV := fun i => inp.forceIZV i + tzV f e inp i
  fjx := inp.fjx - ∑ i, txV f e inp i
  fjy := inp.fjy - ∑ i, tyV f e inp i
  fjz := inp.fjz - ∑ i, tzV f e inp i
  vctot := inp.vctot + ∑ i, vCoulombV f e inp i
  Vvdwtot := inp.Vvdwtot + ∑ i, vLJV f e inp i

/-- `pairCountWithinCutoff` (`part_002:248`): counts the lane entries whose
`cutoffSquared - rSquared` is nonnegative. -/
def pairCountWithinCutoff {nR W : ℕ} (rSquared : Fin nR → Fin W → ℚ)
    (cutoffSquared : ℚ) : ℕ :=
  ∑ i, ∑ j, if 0 ≤ cutoffSquared - rSquared i j then 1 else 0

/-- A concrete kernel configuration for witnesses: full LJ, Coulomb, exclusion
checking, energies, VdW cut-off check, reaction field. -/
def demoKernelFlags : KernelFlags :=
  { iLJInteractions := .Full
    calculateCoulombInteractions := true
    needToCheckExclusions := true
    haveLJEwaldGeometric := false
    calculateEnergies := true
    haveVdwCutoffCheck := true
    coulombIsRF := true }

/-- Concrete external helpers for witnesses. -/
def demoKernelExternal : KernelExternal 2 :=
  { invsqrt := fun _ => 1
    coulombForce := fun _ _ _ _ => 1
    coulombForceAndCorrectionEnergy := fun _ _ _ _ => (1, 1)
    ewaldShift := 1
    ljForce := fun _ _ _ _ _ _ => (1, 1)
    ljEwaldCorrection := fun _ _ _ _ _ p => p
    diagMask := fun _ => true }

/-- A concrete lane input whose pair lies beyond the cut-off (a sentinel-style
far-away i-atom): `rSquared = 100`, `cutoffSquared = 1`. -/
def demoKernelInput : KernelInput 2 :=
  { ixV := fun _ => 10, iyV := fun _ => 0, izV := fun _ => 0
    chargeIV := fun _ => 1
    jx := 0, jy := 0, jz := 0, jq := 1
    interactV := fun _ => false
    forceIXV := fun _ => 3, forceIYV := fun _ => 4, forceIZV := fun _ => 5
    fjx := 6, fjy := 7, fjz := 8
    vctot := 9, Vvdwtot := 10
    cutoffSquared := 1
    minDistanceSquared := 1/100
    vdwCutoffSquared := 1 }

/-- A concrete lane input for an excluded pair within the cut-off:
`rSquared = 1/4 < cutoffSquared = 1`, `interactV = false`. -/
def demoKernelInputNear : KernelInput 2 :=
  { demoKernelInput with ixV := fun _ => 1/2 }

/-! ## PME GPU grid halo exchange (`pme_gpu_grid_sycl.cpp`)

The SYCL kernels are data-parallel loops over the work-item space
`ix < myGridX, iy < myGridY, iz < pmeSize.z` (work items with larger `iy`/`iz`
return early, `pme_gpu_grid_sycl.cpp:119`).  Device arrays are modelled as
functions `ℕ → ℚ` over flat indices, and a kernel run as a list of
`(index, value)` writes applied in sequence; since each claim's theorem shows
the writes commute (distinct targets, or equal values), the sequential model
captures any parallel execution order. -/

/-- Applies a list of writes to a flat array, in order (later writes win). -/
def applyWrites (ws : List (ℕ × ℚ)) (g : ℕ → ℚ) : ℕ → ℚ :=
  ws.foldl (fun g' w => fun p => if p = w.1 then w.2 else g' p) g

/-- Applies read-modify-write updates `g[key it] += val it` in sequence. -/
def applyAccum {ι : Type _} (key : ι → ℕ) (val : ι → ℚ) (items : List ι)
    (g : ℕ → ℚ) : ℕ → ℚ :=
  items.foldl (fun g' it => fun p => if p = key it then g' (key it) + val it else g' p) g

/-- Decodes a flat index with strides `B*C`, `C`, `1` into coordinates. -/
def dec3 (B C k : ℕ) : ℕ × ℕ × ℕ :=
  (k / (B * C), k / C % B, k % C)

/-- The work-item space of the PME grid kernels. -/
def gridWorkItems (nx ny nz : ℕ) : List (ℕ × ℕ × ℕ) :=
  List.range nx ×ˢ (List.range ny ×ˢ List.range nz)

/-- Geometry of the external pack/unpack kernels (`PackHaloExternal`,
`UnpackHaloExternal`): local domain size, padded PME grid size, and the four
halo sizes. -/
structure HaloParams where
  myGridX : ℕ
  myGridY : ℕ
  pmeSizeX : ℕ
  pmeSizeY : ℕ
  pmeSizeZ : ℕ
  overlapSizeUp : ℕ
  overlapSizeDown : ℕ
  overlapSizeLeft : ℕ
  overlapSizeRight : ℕ
  deriving DecidableEq, Repr

/-- The eight neighbor directions of the halo transfer buffers. -/
inductive HaloDir where
  | up
  | down
  | left
  | right
  | upLeft
  | downLeft
  | upRight
  | downRight
  deriving DecidableEq, Repr

/-- The guard of each direction's branch in `PackHaloExternal` and
`UnpackHaloExternal` (`pme_gpu_grid_sycl.cpp:125..192` and `266..333`; the
same conditions appear in both kernels). -/
def haloCond (p : HaloParams) (d : HaloDir) (ix iy : ℕ) : Bool :=
  match d with
  | .up => ix < p.overlapSizeUp
  | .down => p.myGridX - p.overlapSizeDown ≤ ix
  | .left => iy < p.overlapSizeLeft
  | .right => p.myGridY - p.overlapSizeRight ≤ iy
  | .upLeft => ix < p.overlapSizeUp && iy < p.overlapSizeLeft
  | .downLeft => p.myGridX - p.overlapSizeDown ≤ ix && iy < p.overlapSizeLeft
  | .upRight => ix < p.overlapSizeUp && p.myGridY - p.overlapSizeRight ≤ iy
  | .downRight => p.myGridX - p.overlapSizeDown ≤ ix && p.myGridY - p.overlapSizeRight ≤ iy

/-- `pmeIndex` of each direction's branch (identical formulas in
`PackHaloExternal` and `UnpackHaloExternal`). -/
def haloPmeIndex (p : HaloParams) (d : HaloDir) (ix iy iz : ℕ) : ℕ :=
  match d with
  | .up => (ix + p.pmeSizeX - p.overlapSizeUp) * p.pmeSizeY * p.pmeSizeZ
      + iy * p.pmeSizeZ + iz
  | .down => (ix + p.overlapSizeDown) * p.pmeSizeY * p.pmeSizeZ + iy * p.pmeSizeZ + iz
  | .left => ix * p.pmeSizeY * p.pmeSizeZ
      + (iy + p.pmeSizeY - p.overlapSizeLeft) * p.pmeSizeZ + iz
  | .right => ix * p.pmeSizeY * p.pmeSizeZ + (iy + p.overlapSizeRight) * p.pmeSizeZ + iz
  | .upLeft => (ix + p.pmeSizeX - p.overlapSizeUp) * p.pmeSizeY * p.pmeSizeZ
      + (iy + p.pmeSizeY - p.overlapSizeLeft) * p.pmeSizeZ + iz
  | .downLeft => (ix + p.overlapSizeDown) * p.pmeSizeY * p.pmeSizeZ
      + (iy + p.pmeSizeY - p.overlapSizeLeft) * p.pmeSizeZ + iz
  | .upRight => (ix + p.pmeSizeX - p.overlapSizeUp) * p.pmeSizeY * p.pmeSizeZ
      + (iy + p.overlapSizeRight) * p.pmeSizeZ + iz
  | .downRight => (ix + p.overlapSizeDown) * p.pmeSizeY * p.pmeSizeZ
      + (iy + p.overlapSizeRight) * p.pmeSizeZ + iz

/-- `packedIndex` of each direction's branch (identical formulas in
`PackHaloExternal` and `UnpackHaloExternal`). -/
def haloPackedIndex (p : HaloParams) (d : HaloDir) (ix iy iz : ℕ) : ℕ :=
  match d with
  | .up => ix * p.myGridY * p.pmeSizeZ + iy * p.pmeSizeZ + iz
  | .down => (ix - (p.myGridX - p.overlapSizeDown)) * p.myGridY * p.pmeSizeZ
      + iy * p.pmeSizeZ + iz
  | .left => ix * p.overlapSizeLeft * p.pmeSizeZ + iy * p.pmeSizeZ + iz
  | .right => ix * p.overlapSizeRight * p.pmeSizeZ
      + (iy - (p.myGridY - p.overlapSizeRight)) * p.pmeSizeZ + iz
  | .upLeft => ix * p.overlapSizeLeft * p.pmeSizeZ + iy * p.pmeSizeZ + iz
  | .downLeft => (ix - (p.myGridX - p.overlapSizeDown)) * p.overlapSizeLeft * p.pmeSizeZ
      + iy * p.pmeSizeZ + iz
  | .upRight => ix * p.overlapSizeRight * p.pmeSizeZ
      + (iy - (p.myGridY - p.overlapSizeRight)) * p.pmeSizeZ + iz
  | .downRight => (ix - (p.myGridX - p.overlapSizeDown)) * p.overlapSizeRight * p.pmeSizeZ
      + (iy - (p.myGridY - p.overlapSizeRight)) * p.pmeSizeZ + iz

/-- Recovers the work-item coordinates from a direction's packed index
(inverse of `haloPackedIndex` on its branch domain). -/
def haloRecover (p : HaloParams) (d : HaloDir) (k : ℕ) : ℕ × ℕ × ℕ :=
  match d with
  | .up => dec3 p.myGridY p.pmeSizeZ k
  | .down =>
      let w := dec3 p.myGridY p.pmeSizeZ k
      (w.1 + (p.myGridX - p.overlapSizeDown), w.2.1, w.2.2)
  | .left => dec3 p.overlapSizeLeft p.pmeSizeZ k
  | .right =>
      let w := dec3 p.overlapSizeRight p.pmeSizeZ k
      (w.1, w.2.1 + (p.myGridY - p.overlapSizeRight), w.2.2)
  | .upLeft => dec3 p.overlapSizeLeft p.pmeSizeZ k
  | .downLeft =>
      let w := dec3 p.overlapSizeLeft p.pmeSizeZ k
      (w.1 + (p.myGridX - p.overlapSizeDown), w.2.1, w.2.2)
  | .upRight =>
      let w := dec3 p.overlapSizeRight p.pmeSizeZ k
      (w.1, w.2.1 + (p.myGridY - p.overlapSizeRight), w.2.2)
  | .downRight =>
      let w := dec3 p.overlapSizeRight p.pmeSizeZ k
      (w.1 + (p.myGridX - p.overlapSizeDown), w.2.1 + (p.myGridY - p.overlapSizeRight), w.2.2)

/-- The writes of `PackHaloExternal` (`pme_gpu_grid_sycl.cpp:63..203`) into
the transfer buffer of direction `d`: for every work item in the branch
guard, `buffer[packedIndex] := grid[pmeIndex]`.  The eight buffers are
disjoint output arrays, so the kernel is embedded as one write list per
buffer. -/
def packHaloWrites (p : HaloParams) (grid : ℕ → ℚ) (d : HaloDir) : List (ℕ × ℚ) :=
  (gridWorkItems p.myGridX p.myGridY p.pmeSizeZ).filterMap fun w =>
    if haloCond p d w.1 w.2.1 then
      some (haloPackedIndex p d w.1 w.2.1 w.2.2, grid (haloPmeIndex p d w.1 w.2.1 w.2.2))
    else none

/-- The transfer buffer of direction `d` after `PackHaloExternal` runs over
an initial buffer state. -/
def PackHaloExternal (p : HaloParams) (grid : ℕ → ℚ) (bufInit : HaloDir → ℕ → ℚ)
    (d : HaloDir) : ℕ → ℚ :=
  applyWrites (packHaloWrites p grid d) (bufInit d)

/-- The write list of `UnpackHaloExternal` (`pme_gpu_grid_sycl.cpp:205..343`):
for every work item and every direction whose guard holds,
`grid[pmeIndex] := buffer_d[packedIndex]`, in the source's branch order. -/
def unpackHaloWrites (p : HaloParams) (bufs : HaloDir → ℕ → ℚ) : List (ℕ × ℚ) :=
  (gridWorkItems p.myGridX p.myGridY p.pmeSizeZ).flatMap fun w =>
    [HaloDir.up, HaloDir.down, HaloDir.left, HaloDir.right,
     HaloDir.upLeft, HaloDir.downLeft, HaloDir.upRight, HaloDir.downRight].filterMap fun d =>
      if haloCond p d w.1 w.2.1 then
        some (haloPmeIndex p d w.1 w.2.1 w.2.2, bufs d (haloPackedIndex p d w.1 w.2.1 w.2.2))
      else none

/-- The grid after `UnpackHaloExternal` runs over grid state `grid`. -/
def UnpackHaloExternal (p : HaloParams) (bufs : HaloDir → ℕ → ℚ) (grid : ℕ → ℚ) : ℕ → ℚ :=
  applyWrites (unpackHaloWrites p bufs) grid

/-- Geometry of the internal reduction kernel `UnpackAndAddHaloInternal`
(`pme_gpu_grid_sycl.cpp:346..475`): its four halo arguments are
`overlapSizeX, overlapSizeY, overlapUp, overlapLeft`. -/
structure InternalHaloParams where
  myGridX : ℕ
  myGridY : ℕ
  pmeSizeX : ℕ
  pmeSizeY : ℕ
  pmeSizeZ : ℕ
  overlapSizeX : ℕ
  overlapSizeY : ℕ
  overlapUp : ℕ
  overlapLeft : ℕ
  deriving DecidableEq, Repr

/-- `pmeIndex` of `UnpackAndAddHaloInternal` (`pme_gpu_grid_sycl.cpp:406`). -/
def pmeCellIndex (q : InternalHaloParams) (ix iy iz : ℕ) : ℕ :=
  ix * q.pmeSizeY * q.pmeSizeZ + iy * q.pmeSizeZ + iz

/-- The value added to one grid point by `UnpackAndAddHaloInternal`
(`pme_gpu_grid_sycl.cpp:410..470`): the applicable received contributions, in
the source's branch order (up, down, left, right, up-left, up-right,
down-left, down-right). -/
def unpackAddContribution (q : InternalHaloParams) (bufs : HaloDir → ℕ → ℚ)
    (ix iy iz : ℕ) : ℚ :=
  (if ix < q.overlapSizeX then
    bufs .up (ix * q.myGridY * q.pmeSizeZ + iy * q.pmeSizeZ + iz)
  else 0)
  + (if q.myGridX - q.overlapSizeX ≤ ix ∧ 0 < q.overlapUp then
      bufs .down ((ix - (q.myGridX - q.overlapSizeX)) * q.myGridY * q.pmeSizeZ
        + iy * q.pmeSizeZ + iz)
    else 0)
  + (if iy < q.overlapSizeY then
      bufs .left (ix * q.overlapSizeY * q.pmeSizeZ + iy * q.pmeSizeZ + iz)
    else 0)
  + (if q.myGridY - q.overlapSizeY ≤ iy ∧ 0 < q.overlapLeft then
      bufs .right (ix * q.overlapSizeY * q.pmeSizeZ
        + (iy - (q.myGridY - q.overlapSizeY)) * q.pmeSizeZ + iz)
    else 0)
  + (if ix < q.overlapSizeX ∧ iy < q.overlapSizeY then
      bufs .upLeft (ix * q.overlapSizeY * q.pmeSizeZ + iy * q.pmeSizeZ + iz)
    else 0)
  + (if ix < q.overlapSizeX ∧ (q.myGridY - q.overlapSizeY ≤ iy ∧ 0 < q.overlapLeft) then
      bufs .upRight (ix * q.overlapSizeY * q.pmeSizeZ
        + (iy - (q.myGridY - q.overlapSizeY)) * q.pmeSizeZ + iz)
    else 0)
  + (if (q.myGridX - q.overlapSizeX ≤ ix ∧ 0 < q.overlapUp) ∧ iy < q.overlapSizeY then
      bufs .downLeft ((ix - (q.myGridX - q.overlapSizeX)) * q.overlapSizeY * q.pmeSizeZ
        + iy * q.pmeSizeZ + iz)
    else 0)
  + (if (q.myGridX - q.overlapSizeX ≤ ix ∧ 0 < q.overlapUp)
        ∧ (q.myGridY - q.overlapSizeY ≤ iy ∧ 0 < q.overlapLeft) then
      bufs .downRight ((ix - (q.myGridX - q.overlapSizeX)) * q.overlapSizeY * q.pmeSizeZ
        + (iy - (q.myGridY - q.overlapSizeY)) * q.pmeSizeZ + iz)
    else 0)

/-- The grid after the reduction kernel `UnpackAndAddHaloInternal` runs:
every work item adds its applicable received contributions to its own grid
point (`val = grid[pmeIndex] + ...; grid[pmeIndex] = val`). -/
def UnpackAndAddHaloInternal (q : InternalHaloParams) (bufs : HaloDir → ℕ → ℚ)
    (grid : ℕ → ℚ) : ℕ → ℚ :=
  applyAccum (fun w => pmeCellIndex q w.1 w.2.1 w.2.2)
    (fun w => unpackAddContribution q bufs w.1 w.2.1 w.2.2)
    (gridWorkItems q.myGridX q.myGridY q.pmeSizeZ) grid

/-- Events of the host-side orchestration in `pmeGpuGridHaloExchange`
(`pme_gpu_grid_sycl.cpp:659..930`). -/
inductive HaloEvent where
  /-- submission of the `PackHaloExternal` kernel. -/
  | submitPackKernel
  /-- `pmeStream_.synchronize()`. -/
  | streamSynchronize
  /-- `MPI_Irecv` posted with the given tag. -/
  | postRecv (tag : ℕ)
  /-- `MPI_Isend` posted with the given tag. -/
  | postSend (tag : ℕ)
  /-- `MPI_Waitall` over `count` requests. -/
  | waitAll (count : ℕ)
  /-- submission of the `UnpackAndAddHaloInternal` reduction kernel. -/
  | submitReduceKernel
  deriving DecidableEq, Repr

/-- `receiveAndSend` (`pme_gpu_grid_sycl.cpp:642`): posts an `MPI_Irecv` and
an `MPI_Isend`, two request slots. -/
def receiveAndSendEvents (tag : ℕ) : List HaloEvent :=
  [HaloEvent.postRecv tag, HaloEvent.postSend tag]

/-- The `reqCount` accumulated by one grid iteration of
`pmeGpuGridHaloExchange` (incremented by 2 per `receiveAndSend`). -/
def gridHaloReqCount (nnodesX nnodesY overlapUp overlapLeft : ℕ) : ℕ :=
  (if 1 < nnodesX then 2 + (if 0 < overlapUp then 2 else 0) else 0)
  + (if 1 < nnodesY then 2 + (if 0 < overlapLeft then 2 else 0) else 0)
  + (if 1 < nnodesX ∧ 1 < nnodesY then
      2 + (if 0 < overlapLeft then 2 else 0) + (if 0 < overlapUp then 2 else 0)
        + (if 0 < overlapUp ∧ 0 < overlapLeft then 2 else 0)
    else 0)

/-- The event trace of one `gridIndex` iteration of `pmeGpuGridHaloExchange`
(`pme_gpu_grid_sycl.cpp:690..926`): optional packing, stream synchronize,
the major-axis, minor-axis and diagonal-corner request posts, one
`MPI_Waitall` over all posted requests, then the reduction submission. -/
def pmeGpuGridHaloExchangeGridTrace (nnodesX nnodesY overlapUp overlapLeft : ℕ) :
    List HaloEvent :=
  (if nnodesY = 1 then [] else [HaloEvent.submitPackKernel])
  ++ [HaloEvent.streamSynchronize]
  ++ (if 1 < nnodesX then
      receiveAndSendEvents 403 ++ (if 0 < overlapUp then receiveAndSendEvents 403 else [])
    else [])
  ++ (if 1 < nnodesY then
      receiveAndSendEvents 404 ++ (if 0 < overlapLeft then receiveAndSendEvents 404 else [])
    else [])
  ++ (if 1 < nnodesX ∧ 1 < nnodesY then
      receiveAndSendEvents 405
      ++ (if 0 < overlapLeft then receiveAndSendEvents 405 else [])
      ++ (if 0 < overlapUp then receiveAndSendEvents 405 else [])
      ++ (if 0 < overlapUp ∧ 0 < overlapLeft then receiveAndSendEvents 405 else [])
    else [])
  ++ [HaloEvent.waitAll (gridHaloReqCount nnodesX nnodesY overlapUp overlapLeft),
      HaloEvent.submitReduceKernel]

/-- The full event trace of `pmeGpuGridHaloExchange` over all grid indices,
each event tagged with its grid index. -/
def pmeGpuGridHaloExchangeTrace (ngrids nnodesX nnodesY overlapUp overlapLeft : ℕ) :
    List (ℕ × HaloEvent) :=
  (List.range ngrids).flatMap fun gridIndex =>
    (pmeGpuGridHaloExchangeGridTrace nnodesX nnodesY overlapUp overlapLeft).map
      fun ev => (gridIndex, ev)

/-- Whether an event posts an MPI request. -/
def isPostEvent : HaloEvent → Bool
  | .postRecv _ => true
  | .postSend _ => true
  | _ => false

/-- Completion-ordering check on one grid's trace: the trace ends with a
single `MPI_Waitall` whose request count is exactly the number of posted
requests, immediately followed by the reduction-kernel submission; every
post precedes the waitall, and no other waitall or reduction submission
occurs. -/
def haloOrderingOk (tr : List HaloEvent) : Bool :=
  match tr.reverse with
  | HaloEvent.submitReduceKernel :: HaloEvent.waitAll n :: rest =>
      (n = (rest.filter isPostEvent).length)
      && rest.all fun ev =>
        match ev with
        | HaloEvent.waitAll _ => false
        | HaloEvent.submitReduceKernel => false
        | _ => true
  | _ => false

/-- Concrete halo geometry for witnesses: `2×2` local grid, `3×3×1` padded
PME grid, all overlaps `1`. -/
def demoHaloParams : HaloParams :=
  { myGridX := 2, myGridY := 2, pmeSizeX := 3, pmeSizeY := 3, pmeSizeZ := 1
    overlapSizeUp := 1, overlapSizeDown := 1, overlapSizeLeft := 1, overlapSizeRight := 1 }

/-- Concrete internal halo geometry for witnesses. -/
def demoInternalParams : InternalHaloParams :=
  { myGridX := 2, myGridY := 2, pmeSizeX := 3, pmeSizeY := 3, pmeSizeZ := 1
    overlapSizeX := 1, overlapSizeY := 1, overlapUp := 1, overlapLeft := 1 }

/-- A concrete grid state for witnesses. -/
def demoGrid : ℕ → ℚ := fun k => (k : ℚ)

/-- A concrete initial transfer-buffer state for witnesses. -/
def demoBufInit : HaloDir → ℕ → ℚ := fun _ _ => 0

/-- Concrete received-buffer contents for witnesses. -/
def demoBufs : HaloDir → ℕ → ℚ := fun _ k => (k : ℚ) + 100

/-! ### Helper lemmas about `flatMap` with constant-length blocks -/

theorem length_flatMap_const {α β : Type _} (l : List α) (f : α → List β) (k : ℕ)
    (h : ∀ a ∈ l, (f a).length = k) : (l.flatMap f).length = l.length * k := by
  induction l with
  | nil => simp
  | cons a t ih =>
    have ha : (f a).length = k := h a (by simp)
    have ht : (t.flatMap f).length = t.length * k :=
      ih fun x hx => h x (List.mem_cons_of_mem _ hx)
    simp only [List.flatMap_cons, List.length_append, List.length_cons, ha, ht]
    ring

theorem getElem?_flatMap_const {α β : Type _} (l : List α) (f : α → List β) (k : ℕ)
    (h : ∀ a ∈ l, (f a).length = k) (i r : ℕ) (hi : i < l.length) (hr : r < k) :
    (l.flatMap f)[i * k + r]? = (f (l.get ⟨i, hi⟩))[r]? := by
  induction l generalizing i with
  | nil => simp at hi
  | cons a t ih =>
    have ha : (f a).length = k := h a (by simp)
    cases i with
    | zero =>
      rw [List.flatMap_cons, Nat.zero_mul, Nat.zero_add,
        List.getElem?_append_left (by rw [ha]; exact hr)]
      rfl
    | succ n =>
      have hpos : (n + 1) * k + r = (f a).length + (n * k + r) := by
        rw [ha]; ring
      have hn : n < t.length := by simpa using hi
      rw [List.flatMap_cons, hpos, List.getElem?_append_right (by omega)]
      have hsub : (f a).length + (n * k + r) - (f a).length = n * k + r := by omega
      rw [hsub, ih (fun x hx => h x (List.mem_cons_of_mem _ hx)) n hn]
      rfl

/-- Each i-type block of `createNonBondedParameters` has length `2 * T`. -/
theorem createNonBondedParameters_block_length (particleTypes : List ParticleType)
    (m : NonBondedInteractionMap) (t1 : ParticleType) :
    (particleTypes.flatMap fun t2 =>
      [m.getC6 t1.name t2.name * 6, m.getC12 t1.name t2.name * 12]).length
      = particleTypes.length * 2 :=
  length_flatMap_const _ _ 2 (fun _ _ => rfl)

/-- The entry pair of `createNonBondedParameters` at type-pair `(i, j)`. -/
theorem createNonBondedParameters_entry (particleTypes : List ParticleType)
    (m : NonBondedInteractionMap) (i j : ℕ)
    (hi : i < particleTypes.length) (hj : j < particleTypes.length) :
    (createNonBondedParameters particleTypes m)[2 * (i * particleTypes.length + j)]?
        = some (m.getC6 (particleTypes.get ⟨i, hi⟩).name (particleTypes.get ⟨j, hj⟩).name * 6)
    ∧ (createNonBondedParameters particleTypes m)[2 * (i * particleTypes.length + j) + 1]?
        = some (m.getC12 (particleTypes.get ⟨i, hi⟩).name (particleTypes.get ⟨j, hj⟩).name * 12) := by
  have houter : ∀ t1 ∈ particleTypes,
      ((fun t1 => particleTypes.flatMap fun t2 =>
        [m.getC6 t1.name t2.name * 6, m.getC12 t1.name t2.name * 12]) t1).length
        = particleTypes.length * 2 :=
    fun t1 _ => createNonBondedParameters_block_length particleTypes m t1
  have hinner2 : ∀ (t1 : ParticleType), ∀ t2 ∈ particleTypes,
      (((fun t2 => [m.getC6 t1.name t2.name * 6, m.getC12 t1.name t2.name * 12]) t2).length) = 2 :=
    fun _ _ _ => rfl
  constructor
  · have hidx : 2 * (i * particleTypes.length + j)
        = i * (particleTypes.length * 2) + (j * 2 + 0) := by ring
    rw [createNonBondedParameters, hidx,
      getElem?_flatMap_const _ _ (particleTypes.length * 2) houter i (j * 2 + 0) hi (by omega)]
    show (particleTypes.flatMap fun t2 =>
      [m.getC6 (particleTypes.get ⟨i, hi⟩).name t2.name * 6,
       m.getC12 (particleTypes.get ⟨i, hi⟩).name t2.name * 12])[j * 2 + 0]? = _
    rw [getElem?_flatMap_const _ _ 2 (hinner2 _) j 0 hj (by omega)]
    rfl
  · have hidx : 2 * (i * particleTypes.length + j) + 1
        = i * (particleTypes.length * 2) + (j * 2 + 1) := by ring
    rw [createNonBondedParameters, hidx,
      getElem?_flatMap_const _ _ (particleTypes.length * 2) houter i (j * 2 + 1) hi (by omega)]
    show (particleTypes.flatMap fun t2 =>
      [m.getC6 (particleTypes.get ⟨i, hi⟩).name t2.name * 6,
       m.getC12 (particleTypes.get ⟨i, hi⟩).name t2.name * 12])[j * 2 + 1]? = _
    rw [getElem?_flatMap_const _ _ 2 (hinner2 _) j 1 hj (by omega)]
    rfl

end Gromacs

namespace Gromacs

/-! ## Claim theorems for the nblib setup helpers -/

/-- C6: `createNonBondedParameters` returns exactly `2*T*T` entries; for every
ordered pair of types `(t1, t2)` the two entries stored at index
`2*(i*T + j)` are `6*C6(t1,t2)` followed by `12*C12(t1,t2)`; and when the
interaction map is symmetric in its two type arguments the table is symmetric:
the entries stored for `(t1, t2)` equal the entries stored for `(t2, t1)`. -/
theorem createNonBondedParameters_correct (particleTypes : List ParticleType)
    (m : NonBondedInteractionMap) :
    (createNonBondedParameters particleTypes m).length
        = 2 * particleTypes.length * particleTypes.length
    ∧ (∀ i j (hi : i < particleTypes.length) (hj : j < particleTypes.length),
        (createNonBondedParameters particleTypes m)[2 * (i * particleTypes.length + j)]?
            = some (m.getC6 (particleTypes.get ⟨i, hi⟩).name (particleTypes.get ⟨j, hj⟩).name * 6)
        ∧ (createNonBondedParameters particleTypes m)[2 * (i * particleTypes.length + j) + 1]?
            = some (m.getC12 (particleTypes.get ⟨i, hi⟩).name (particleTypes.get ⟨j, hj⟩).name * 12))
    ∧ ((∀ a b, m.getC6 a b = m.getC6 b a) → (∀ a b, m.getC12 a b = m.getC12 b a) →
        ∀ i j, i < particleTypes.length → j < particleTypes.length →
          (createNonBondedParameters particleTypes m)[2 * (i * particleTypes.length + j)]?
              = (createNonBondedParameters particleTypes m)[2 * (j * particleTypes.length + i)]?
          ∧ (createNonBondedParameters particleTypes m)[2 * (i * particleTypes.length + j) + 1]?
              = (createNonBondedParameters particleTypes m)[2 * (j * particleTypes.length + i) + 1]?) := by
  refine ⟨?_, ?_, ?_⟩
  · rw [createNonBondedParameters,
      length_flatMap_const _ _ (particleTypes.length * 2)
        (fun t1 _ => createNonBondedParameters_block_length particleTypes m t1)]
    ring
  · exact fun i j hi hj => createNonBondedParameters_entry particleTypes m i j hi hj
  · intro h6 h12 i j hi hj
    obtain ⟨e1, e2⟩ := createNonBondedParameters_entry particleTypes m i j hi hj
    obtain ⟨e1s, e2s⟩ := createNonBondedParameters_entry particleTypes m j i hj hi
    exact ⟨by rw [e1, e1s, h6], by rw [e2, e2s, h12]⟩

/-- C6 witness: the theorem applied to a concrete two-type system. -/
theorem createNonBondedParameters_correct_witness :
    (createNonBondedParameters demoTypes demoMap)[2 * (0 * demoTypes.length + 1)]? = some 30 :=
  (((createNonBondedParameters_correct demoTypes demoMap).2.1 0 1
    (by decide) (by decide)).1).trans (by norm_num [demoMap])

/-- C7: `checkKernelSetup` succeeds exactly on valid, build-supported SIMD
kernel requests; every other request produces an `InputException` diagnostic
(one of the two messages in the source); and `createKernelSetupCPU` never
returns a kernel setup for an invalid request. -/
theorem checkKernelSetup_correct (cfg : BuildConfig) (options : NBKernelOptions)
    (setup : KernelSetup) :
    (checkKernelSetup cfg options.nbnxmSimd = Except.ok () ↔
      validKernelRequest cfg options.nbnxmSimd)
    ∧ (¬validKernelRequest cfg options.nbnxmSimd →
        checkKernelSetup cfg options.nbnxmSimd = Except.error "Need a valid kernel SIMD type"
        ∨ checkKernelSetup cfg options.nbnxmSimd
            = Except.error "The requested SIMD kernel was not set up at configuration time")
    ∧ (createKernelSetupCPU cfg options = Except.ok setup →
        validKernelRequest cfg options.nbnxmSimd) := by
  obtain ⟨g, h4, h2⟩ := cfg
  obtain ⟨s, tab⟩ := options
  obtain ⟨kt, ee⟩ := setup
  cases s <;> cases g <;> cases h4 <;> cases h2 <;> cases tab <;> cases kt <;> cases ee <;>
    decide

/-- C7 witness: a concrete valid request is accepted, a concrete invalid one
is rejected by `createKernelSetupCPU`. -/
theorem checkKernelSetup_correct_witness :
    validKernelRequest ⟨true, true, true⟩ SimdKernels.Simd4XM :=
  (checkKernelSetup_correct ⟨true, true, true⟩ ⟨SimdKernels.Simd4XM, false⟩
    ⟨KernelType.Cpu4xN_Simd_4xN, EwaldExclusionType.Analytical⟩).1.mp (by decide)

/-! ## Claim theorems for the SIMD inner loop -/

/-- C1: every atom pair whose squared distance is at least `cutoffSquared`
contributes exactly zero to the i-atom force accumulators, to the j-atom
force register summands, and to the masked Coulomb and Lennard-Jones energy
terms that feed the energy accumulators — for every kernel configuration and
every choice of the external helper functions.  (The VdW cut-off, when
separately checked, is never longer than the Coulomb cut-off, per the
comment at `part_003:308`.) -/
theorem simdInnerLoop_beyond_cutoff_zero {nR : ℕ} (f : KernelFlags)
    (e : KernelExternal nR) (inp : KernelInput nR) (i : Fin nR)
    (hvdw : f.haveVdwCutoffCheck = true → inp.vdwCutoffSquared ≤ inp.cutoffSquared)
    (hr : inp.cutoffSquared ≤ rSquaredV inp i) :
    txV f e inp i = 0 ∧ tyV f e inp i = 0 ∧ tzV f e inp i = 0
    ∧ (simdInnerLoop f e inp).forceIXV i = inp.forceIXV i
    ∧ (simdInnerLoop f e inp).forceIYV i = inp.forceIYV i
    ∧ (simdInnerLoop f e inp).forceIZV i = inp.forceIZV i
    ∧ vCoulombV f e inp i = 0 ∧ vLJV f e inp i = 0 := by
  have h0 : withinCutoff0V inp i = false := by
    simp only [withinCutoff0V, decide_eq_false_iff_not, not_lt]
    exact hr
  have hw : withinCutoffV f e inp i = false := by
    unfold withinCutoffV
    split_ifs <;> simp [h0]
  have hrinv : rInvV f e inp i = 0 := by simp [rInvV, hw]
  have hrsq2 : rInvSquaredV f e inp i = 0 := by simp [rInvSquaredV, hrinv]
  have hfs : fScalarV f e inp i = 0 := by
    unfold fScalarV
    split_ifs <;> simp [hrsq2]
  have htx : txV f e inp i = 0 := by simp [txV, hfs]
  have hty : tyV f e inp i = 0 := by simp [tyV, hfs]
  have htz : tzV f e inp i = 0 := by simp [tzV, hfs]
  have hvdwmask : f.haveVdwCutoffCheck = true → withinVdwCutoffV inp i = false := by
    intro hB
    simp only [withinVdwCutoffV, decide_eq_false_iff_not, not_lt]
    calc inp.vdwCutoffSquared ≤ inp.cutoffSquared := hvdw hB
      _ ≤ rSquaredV inp i := hr
      _ ≤ rSquaredClampedV inp i := le_max_left _ _
  have hQ : (if f.haveVdwCutoffCheck then withinVdwCutoffV inp i
      else withinCutoffV f e inp i) = false := by
    by_cases hB : f.haveVdwCutoffCheck = true
    · simp [hB, hvdwmask hB]
    · simp [Bool.eq_false_iff.mpr hB, hw]
  have hvc : vCoulombV f e inp i = 0 := by
    unfold vCoulombV
    split_ifs with h1 h2
    · rw [hw] at h2; cases h2
    · rfl
    · rfl
  have hvl : vLJV f e inp i = 0 := by
    by_cases hB : f.haveVdwCutoffCheck = true
    · simp [vLJV, hB, hvdwmask hB]
    · simp [vLJV, hB, hw]
  exact ⟨htx, hty, htz, by simp [simdInnerLoop, htx], by simp [simdInnerLoop, hty],
    by simp [simdInnerLoop, htz], hvc, hvl⟩

/-- C1 witness: the far-away (sentinel-style) concrete pair contributes
exactly zero force and zero energy. -/
theorem simdInnerLoop_beyond_cutoff_zero_witness :
    txV demoKernelFlags demoKernelExternal demoKernelInput 0 = 0
    ∧ tyV demoKernelFlags demoKernelExternal demoKernelInput 0 = 0
    ∧ tzV demoKernelFlags demoKernelExternal demoKernelInput 0 = 0
    ∧ (simdInnerLoop demoKernelFlags demoKernelExternal demoKernelInput).forceIXV 0
        = demoKernelInput.forceIXV 0
    ∧ (simdInnerLoop demoKernelFlags demoKernelExternal demoKernelInput).forceIYV 0
        = demoKernelInput.forceIYV 0
    ∧ (simdInnerLoop demoKernelFlags demoKernelExternal demoKernelInput).forceIZV 0
        = demoKernelInput.forceIZV 0
    ∧ vCoulombV demoKernelFlags demoKernelExternal demoKernelInput 0 = 0
    ∧ vLJV demoKernelFlags demoKernelExternal demoKernelInput 0 = 0 :=
  simdInnerLoop_beyond_cutoff_zero demoKernelFlags demoKernelExternal demoKernelInput 0
    (fun _ => by norm_num [demoKernelInput])
    (by norm_num [demoKernelInput, rSquaredV, dxV, dyV, dzV])

/-- C2: for an atom pair flagged as excluded, when exclusion-correction
forces are computed the direct `1/r` term is masked to zero via `rInvExclV`
(the Coulomb calculator receives `0` in its `rInvExcl` argument, so the
energy is `qq * (0 - correction)`), and only the (sub-)diagonal is removed
from the cut-off mask; when no correction forces are needed the excluded
pair is removed from the interaction entirely (zero force and energy). -/
theorem simdInnerLoop_excluded_pair {nR : ℕ} (f : KernelFlags)
    (e : KernelExternal nR) (inp : KernelInput nR) (i : Fin nR)
    (hneed : f.needToCheckExclusions = true) (hexcl : inp.interactV i = false) :
    (c_haveExclusionForces f = true →
      rInvExclV f e inp i = 0
      ∧ withinCutoffV f e inp i = (withinCutoff0V inp i && e.diagMask i)
      ∧ frCoulombV f e inp i
          = (if f.calculateCoulombInteractions then
              qqV f inp i *
                (if f.calculateEnergies then
                  (e.coulombForceAndCorrectionEnergy (rSquaredClampedV inp i)
                    (rInvV f e inp i) 0 (withinCutoffV f e inp i)).1
                else
                  e.coulombForce (rSquaredClampedV inp i) (rInvV f e inp i) 0
                    (withinCutoffV f e inp i))
            else 0)
      ∧ vCoulombV f e inp i
          = (if f.calculateCoulombInteractions ∧ f.calculateEnergies then
              (if withinCutoffV f e inp i then
                qqV f inp i * (0 - vCoulombCorrectionV f e inp i)
              else 0)
            else 0))
    ∧ (c_haveExclusionForces f = false →
      withinCutoffV f e inp i = false
      ∧ txV f e inp i = 0 ∧ tyV f e inp i = 0 ∧ tzV f e inp i = 0
      ∧ vCoulombV f e inp i = 0 ∧ vLJV f e inp i = 0) := by
  constructor
  · intro hexf
    have hre : rInvExclV f e inp i = 0 := by simp [rInvExclV, hexf, hexcl]
    have hwc : withinCutoffV f e inp i = (withinCutoff0V inp i && e.diagMask i) := by
      simp [withinCutoffV, hneed, hexf]
    refine ⟨hre, hwc, ?_, ?_⟩
    · unfold frCoulombV coulombPairV
      rw [hre] at *
      by_cases hc : f.calculateCoulombInteractions = true <;>
        by_cases hce : f.calculateEnergies = true <;>
          simp [hc, hce, rInvExclV, hexf, hexcl]
    · unfold vCoulombV
      rw [hre]
  · intro hexf
    have hcoul : f.calculateCoulombInteractions = false := by
      have := hexf
      unfold c_haveExclusionForces at this
      rw [hneed] at this
      simp at this
      exact this.1
    have hgeo : f.haveLJEwaldGeometric = false := by
      have := hexf
      unfold c_haveExclusionForces at this
      rw [hneed] at this
      simp at this
      exact this.2
    have hwc : withinCutoffV f e inp i = false := by
      simp [withinCutoffV, hneed, hexf, hexcl]
    have hrinv : rInvV f e inp i = 0 := by simp [rInvV, hwc]
    have hrsq2 : rInvSquaredV f e inp i = 0 := by simp [rInvSquaredV, hrinv]
    have hfs : fScalarV f e inp i = 0 := by
      unfold fScalarV
      split_ifs <;> simp [hrsq2]
    have hvc : vCoulombV f e inp i = 0 := by
      unfold vCoulombV
      split_ifs with h1 h2
      · rw [h1.1] at hcoul; cases hcoul
      · rfl
      · rfl
    have hvl : vLJV f e inp i = 0 := by
      have hpair : (ljPair2V f e inp i).2 = vLJ1V f e inp i := by
        simp [ljPair2V, hgeo]
      have hv1 : f.calculateEnergies = true → vLJ1V f e inp i = 0 := fun hE => by
        simp [vLJ1V, hE, hneed, hexcl]
      unfold vLJV
      split_ifs with h1 <;> first
        | rfl
        | (rw [hpair]; exact hv1 h1.2.1)
    exact ⟨hwc, by simp [txV, hfs], by simp [tyV, hfs], by simp [tzV, hfs], hvc, hvl⟩

/-- C2 witness: the theorem applied to the concrete excluded near pair. -/
theorem simdInnerLoop_excluded_pair_witness :
    rInvExclV demoKernelFlags demoKernelExternal demoKernelInputNear 0 = 0
    ∧ withinCutoffV demoKernelFlags demoKernelExternal demoKernelInputNear 0
        = (withinCutoff0V demoKernelInputNear 0
            && demoKernelExternal.diagMask 0) :=
  let h := (simdInnerLoop_excluded_pair demoKernelFlags demoKernelExternal
    demoKernelInputNear 0 rfl rfl).1 (by decide)
  ⟨h.1, h.2.1⟩

/-- C3: the argument of `invsqrt` is always at least the configured positive
floor `minDistanceSquared` (so it is positive for coincident coordinates),
and the clamp—applied after the cut-off test—never influences the cut-off
decision: the cut-off masks are invariant under any change of the floor. -/
theorem simdInnerLoop_clamp_floor {nR : ℕ} (f : KernelFlags)
    (e : KernelExternal nR) (inp : KernelInput nR) (i : Fin nR)
    (hpos : 0 < inp.minDistanceSquared) :
    inp.minDistanceSquared ≤ rSquaredClampedV inp i
    ∧ 0 < rSquaredClampedV inp i
    ∧ rInvRawV e inp i = e.invsqrt (rSquaredClampedV inp i)
    ∧ (∀ m : ℚ,
        withinCutoff0V { inp with minDistanceSquared := m } i = withinCutoff0V inp i
        ∧ withinCutoffV f e { inp with minDistanceSquared := m } i
            = withinCutoffV f e inp i) := by
  refine ⟨le_max_right _ _, lt_of_lt_of_le hpos (le_max_right _ _), rfl, fun m => ?_⟩
  constructor
  · simp [withinCutoff0V, rSquaredV, dxV, dyV, dzV]
  · simp [withinCutoffV, withinCutoff0V, rSquaredV, dxV, dyV, dzV]

/-- C3 witness: the clamp floor property at the concrete near input. -/
theorem simdInnerLoop_clamp_floor_witness :
    demoKernelInputNear.minDistanceSquared ≤ rSquaredClampedV demoKernelInputNear 0
    ∧ 0 < rSquaredClampedV demoKernelInputNear 0 :=
  let h := simdInnerLoop_clamp_floor demoKernelFlags demoKernelExternal
    demoKernelInputNear 0 (by norm_num [demoKernelInputNear, demoKernelInput])
  ⟨h.1, h.2.1⟩

/-- C8: the force subtracted from the j-atom array equals the register sum of
the forces added to the i-atom accumulators, so every inner-loop iteration
leaves the total of all accumulated force components unchanged. -/
theorem simdInnerLoop_newton_third_law {nR : ℕ} (f : KernelFlags)
    (e : KernelExternal nR) (inp : KernelInput nR) :
    ((simdInnerLoop f e inp).fjx
        = inp.fjx - ∑ i, ((simdInnerLoop f e inp).forceIXV i - inp.forceIXV i)
      ∧ (simdInnerLoop f e inp).fjy
          = inp.fjy - ∑ i, ((simdInnerLoop f e inp).forceIYV i - inp.forceIYV i)
      ∧ (simdInnerLoop f e inp).fjz
          = inp.fjz - ∑ i, ((simdInnerLoop f e inp).forceIZV i - inp.forceIZV i))
    ∧ ((∑ i, (simdInnerLoop f e inp).forceIXV i) + (simdInnerLoop f e inp).fjx
        = (∑ i, inp.forceIXV i) + inp.fjx
      ∧ (∑ i, (simdInnerLoop f e inp).forceIYV i) + (simdInnerLoop f e inp).fjy
          = (∑ i, inp.forceIYV i) + inp.fjy
      ∧ (∑ i, (simdInnerLoop f e inp).forceIZV i) + (simdInnerLoop f e inp).fjz
          = (∑ i, inp.forceIZV i) + inp.fjz) := by
  have hx : ∀ g t : Fin nR → ℚ, ∀ b : ℚ,
      (b - ∑ i, t i) = b - ∑ i, ((g i + t i) - g i) := by
    intro g t b
    congr 1
    exact Finset.sum_congr rfl fun i _ => by ring
  have hs : ∀ g t : Fin nR → ℚ, ∀ b : ℚ,
      (∑ i, (g i + t i)) + (b - ∑ i, t i) = (∑ i, g i) + b := by
    intro g t b
    rw [Finset.sum_add_distrib]
    ring
  simp only [simdInnerLoop]
  exact ⟨⟨hx _ _ _, hx _ _ _, hx _ _ _⟩, ⟨hs _ _ _, hs _ _ _, hs _ _ _⟩⟩

/-- C10: `pairCountWithinCutoff` counts exactly the lane entries with
`rSquared ≤ cutoffSquared` (a pair exactly at the cut-off distance is
counted), whereas the kernel's cut-off mask keeps only pairs with strictly
`rSquared < cutoffSquared`. -/
theorem pairCountWithinCutoff_correct {nR W : ℕ} (rSquared : Fin nR → Fin W → ℚ)
    (cutoffSquared : ℚ) :
    pairCountWithinCutoff rSquared cutoffSquared
      = (Finset.univ.filter fun p : Fin nR × Fin W =>
          rSquared p.1 p.2 ≤ cutoffSquared).card
    ∧ ∀ (inp : KernelInput nR) (i : Fin nR),
        withinCutoff0V inp i = true ↔ rSquaredV inp i < inp.cutoffSquared := by
  constructor
  · unfold pairCountWithinCutoff
    rw [Finset.card_filter, Fintype.sum_prod_type]
    refine Finset.sum_congr rfl fun i _ => Finset.sum_congr rfl fun j _ => ?_
    simp [sub_nonneg]
  · intro inp i
    simp [withinCutoff0V]

/-! ## Helper lemmas for the halo-exchange kernels -/

theorem dec3_encode (B C a b c : ℕ) (hb : b < B) (hc : c < C) :
    dec3 B C (a * B * C + b * C + c) = (a, b, c) := by
  have hC : 0 < C := lt_of_le_of_lt (Nat.zero_le c) hc
  have hB : 0 < B := lt_of_le_of_lt (Nat.zero_le b) hb
  have h1 : a * B * C + b * C + c = C * (a * B + b) + c := by ring
  have e1 : (a * B * C + b * C + c) % C = c := by
    rw [h1, Nat.mul_add_mod, Nat.mod_eq_of_lt hc]
  have e2 : (a * B * C + b * C + c) / C % B = b := by
    rw [h1, Nat.mul_add_div hC, Nat.div_eq_of_lt hc, Nat.add_zero, Nat.mul_comm a B,
      Nat.mul_add_mod, Nat.mod_eq_of_lt hb]
  have e3 : (a * B * C + b * C + c) / (B * C) = a := by
    have h2 : b * C + c < B * C := by
      have h3 : b * C + c < (b + 1) * C := by rw [Nat.succ_mul]; omega
      have h4 : (b + 1) * C ≤ B * C := Nat.mul_le_mul_right _ hb
      omega
    have h5 : a * B * C + b * C + c = (B * C) * a + (b * C + c) := by ring
    rw [h5, Nat.mul_add_div (Nat.mul_pos hB hC), Nat.div_eq_of_lt h2, Nat.add_zero]
  simp [dec3, e1, e2, e3]

theorem applyWrites_value_fun (F : ℕ → ℚ) :
    ∀ (ws : List (ℕ × ℚ)), (∀ w ∈ ws, w.2 = F w.1) → ∀ (g : ℕ → ℚ) (k : ℕ),
      applyWrites ws g k = if k ∈ ws.map Prod.fst then F k else g k := by
  intro ws
  induction ws with
  | nil => intro _ g k; simp [applyWrites]
  | cons w t ih =>
    intro h g k
    have hw : w.2 = F w.1 := h w (by simp)
    have ht : ∀ x ∈ t, x.2 = F x.1 := fun x hx => h x (List.mem_cons_of_mem _ hx)
    show applyWrites t (fun p => if p = w.1 then w.2 else g p) k = _
    rw [ih ht]
    by_cases h1 : k ∈ t.map Prod.fst
    · simp [h1]
    · by_cases h2 : k = w.1
      · subst h2; simp [h1, hw]
      · simp [h1, h2]

theorem applyAccum_not_mem {ι : Type _} (key : ι → ℕ) (val : ι → ℚ) :
    ∀ (items : List ι) (g : ℕ → ℚ) (k : ℕ), k ∉ items.map key →
      applyAccum key val items g k = g k := by
  intro items
  induction items with
  | nil => intro g k _; rfl
  | cons a t ih =>
    intro g k hk
    rw [List.map_cons, List.mem_cons, not_or] at hk
    show applyAccum key val t (fun p => if p = key a then g (key a) + val a else g p) k = g k
    rw [ih _ k hk.2]
    simp [hk.1]

theorem applyAccum_mem {ι : Type _} (key : ι → ℕ) (val : ι → ℚ) :
    ∀ (items : List ι), (items.map key).Nodup → ∀ it ∈ items, ∀ (g : ℕ → ℚ),
      applyAccum key val items g (key it) = g (key it) + val it := by
  intro items
  induction items with
  | nil => intro _ it hit; cases hit
  | cons a t ih =>
    intro hnd it hit g
    rw [List.map_cons, List.nodup_cons] at hnd
    obtain ⟨hna, hndt⟩ := hnd
    show applyAccum key val t
      (fun p => if p = key a then g (key a) + val a else g p) (key it) = _
    rcases List.mem_cons.mp hit with rfl | hmem
    · rw [applyAccum_not_mem key val t _ _ hna]
      simp
    · have hne : key it ≠ key a := by
        intro hEq
        exact hna (hEq ▸ List.mem_map_of_mem key hmem)
      rw [ih hndt it hmem]
      simp [hne]

theorem mem_gridWorkItems {nx ny nz : ℕ} {w : ℕ × ℕ × ℕ} :
    w ∈ gridWorkItems nx ny nz ↔ w.1 < nx ∧ w.2.1 < ny ∧ w.2.2 < nz := by
  obtain ⟨ix, iy, iz⟩ := w
  simp [gridWorkItems]

theorem gridWorkItems_nodup (nx ny nz : ℕ) : (gridWorkItems nx ny nz).Nodup :=
  List.Nodup.product (List.nodup_range _)
    (List.Nodup.product (List.nodup_range _) (List.nodup_range _))

theorem haloRecover_packedIndex (p : HaloParams) (d : HaloDir) (ix iy iz : ℕ)
    (hiy : iy < p.myGridY) (hiz : iz < p.pmeSizeZ)
    (hcond : haloCond p d ix iy = true) :
    haloRecover p d (haloPackedIndex p d ix iy iz) = (ix, iy, iz) := by
  cases d with
  | up =>
    simp only [haloPackedIndex, haloRecover]
    exact dec3_encode _ _ _ _ _ hiy hiz
  | down =>
    have hc' : p.myGridX - p.overlapSizeDown ≤ ix := by
      simpa [haloCond] using hcond
    have hd := dec3_encode p.myGridY p.pmeSizeZ
      (ix - (p.myGridX - p.overlapSizeDown)) iy iz hiy hiz
    simp [haloPackedIndex, haloRecover, hd, Prod.ext_iff]
    omega
  | left =>
    have hc' : iy < p.overlapSizeLeft := by simpa [haloCond] using hcond
    simp only [haloPackedIndex, haloRecover]
    exact dec3_encode _ _ _ _ _ hc' hiz
  | right =>
    have hc' : p.myGridY - p.overlapSizeRight ≤ iy := by simpa [haloCond] using hcond
    have hb : iy - (p.myGridY - p.overlapSizeRight) < p.overlapSizeRight := by omega
    have hd := dec3_encode p.overlapSizeRight p.pmeSizeZ ix
      (iy - (p.myGridY - p.overlapSizeRight)) iz hb hiz
    simp [haloPackedIndex, haloRecover, hd, Prod.ext_iff]
    omega
  | upLeft =>
    have hc' : ix < p.overlapSizeUp ∧ iy < p.overlapSizeLeft := by
      simpa [haloCond] using hcond
    simp only [haloPackedIndex, haloRecover]
    exact dec3_encode _ _ _ _ _ hc'.2 hiz
  | downLeft =>
    have hc' : p.myGridX - p.overlapSizeDown ≤ ix ∧ iy < p.overlapSizeLeft := by
      simpa [haloCond] using hcond
    have hd := dec3_encode p.overlapSizeLeft p.pmeSizeZ
      (ix - (p.myGridX - p.overlapSizeDown)) iy iz hc'.2 hiz
    simp [haloPackedIndex, haloRecover, hd, Prod.ext_iff]
    omega
  | upRight =>
    have hc' : ix < p.overlapSizeUp ∧ p.myGridY - p.overlapSizeRight ≤ iy := by
      simpa [haloCond] using hcond
    have hb : iy - (p.myGridY - p.overlapSizeRight) < p.overlapSizeRight := by omega
    have hd := dec3_encode p.overlapSizeRight p.pmeSizeZ ix
      (iy - (p.myGridY - p.overlapSizeRight)) iz hb hiz
    simp [haloPackedIndex, haloRecover, hd, Prod.ext_iff]
    omega
  | downRight =>
    have hc' : p.myGridX - p.overlapSizeDown ≤ ix ∧ p.myGridY - p.overlapSizeRight ≤ iy := by
      simpa [haloCond] using hcond
    have hb : iy - (p.myGridY - p.overlapSizeRight) < p.overlapSizeRight := by omega
    have hd := dec3_encode p.overlapSizeRight p.pmeSizeZ
      (ix - (p.myGridX - p.overlapSizeDown))
      (iy - (p.myGridY - p.overlapSizeRight)) iz hb hiz
    simp [haloPackedIndex, haloRecover, hd, Prod.ext_iff]
    omega

/-- After `PackHaloExternal`, the buffer of direction `d` holds the grid value
of the corresponding `pmeIndex` at every packed position. -/
theorem PackHaloExternal_correct (p : HaloParams) (grid : ℕ → ℚ)
    (bufInit : HaloDir → ℕ → ℚ) (d : HaloDir) (ix iy iz : ℕ)
    (hmem : (ix, iy, iz) ∈ gridWorkItems p.myGridX p.myGridY p.pmeSizeZ)
    (hcond : haloCond p d ix iy = true) :
    PackHaloExternal p grid bufInit d (haloPackedIndex p d ix iy iz)
      = grid (haloPmeIndex p d ix iy iz) := by
  obtain ⟨hix, hiy, hiz⟩ := mem_gridWorkItems.mp hmem
  set F : ℕ → ℚ := fun k =>
    grid (haloPmeIndex p d (haloRecover p d k).1 (haloRecover p d k).2.1
      (haloRecover p d k).2.2) with hF
  have hvals : ∀ w ∈ packHaloWrites p grid d, w.2 = F w.1 := by
    intro w hw
    rw [packHaloWrites, List.mem_filterMap] at hw
    obtain ⟨it, hit, heq⟩ := hw
    by_cases hc : haloCond p d it.1 it.2.1 = true
    · rw [if_pos hc] at heq
      obtain ⟨hit1, hit2, hit3⟩ := mem_gridWorkItems.mp hit
      have hrec := haloRecover_packedIndex p d it.1 it.2.1 it.2.2 hit2 hit3 hc
      cases heq
      simp [hF, hrec]
    · rw [if_neg hc] at heq
      cases heq
  have hkey : haloPackedIndex p d ix iy iz ∈ (packHaloWrites p grid d).map Prod.fst := by
    refine List.mem_map.mpr
      ⟨(haloPackedIndex p d ix iy iz, grid (haloPmeIndex p d ix iy iz)), ?_, rfl⟩
    rw [packHaloWrites, List.mem_filterMap]
    exact ⟨(ix, iy, iz), hmem, by rw [if_pos hcond]⟩
  rw [PackHaloExternal, applyWrites_value_fun F _ hvals, if_pos hkey, hF]
  simp [haloRecover_packedIndex p d ix iy iz hiy hiz hcond]

/-! ## Claim theorems for the halo-exchange kernels -/

/-- C9: `PackHaloExternal` and `UnpackHaloExternal` use mutually inverse
index mappings: unpacking the eight buffers produced by packing writes every
packed halo-region grid point back to its original packed value, and leaves
every position never written by the unpack kernel unchanged. -/
theorem packUnpackHaloExternal_roundtrip (p : HaloParams) (grid : ℕ → ℚ)
    (bufInit : HaloDir → ℕ → ℚ) (gridStart : ℕ → ℚ) :
    (∀ (d : HaloDir) (ix iy iz : ℕ),
      (ix, iy, iz) ∈ gridWorkItems p.myGridX p.myGridY p.pmeSizeZ →
      haloCond p d ix iy = true →
      UnpackHaloExternal p (PackHaloExternal p grid bufInit) gridStart
          (haloPmeIndex p d ix iy iz)
        = grid (haloPmeIndex p d ix iy iz))
    ∧ (∀ k, k ∉ (unpackHaloWrites p (PackHaloExternal p grid bufInit)).map Prod.fst →
        UnpackHaloExternal p (PackHaloExternal p grid bufInit) gridStart k
          = gridStart k) := by
  have hvals : ∀ w ∈ unpackHaloWrites p (PackHaloExternal p grid bufInit),
      w.2 = grid w.1 := by
    intro w hw
    rw [unpackHaloWrites, List.mem_flatMap] at hw
    obtain ⟨it, hit, hw2⟩ := hw
    rw [List.mem_filterMap] at hw2
    obtain ⟨d, _, heq⟩ := hw2
    by_cases hc : haloCond p d it.1 it.2.1 = true
    · rw [if_pos hc] at heq
      cases heq
      exact PackHaloExternal_correct p grid bufInit d it.1 it.2.1 it.2.2 hit hc
    · rw [if_neg hc] at heq
      cases heq
  constructor
  · intro d ix iy iz hmem hcond
    have hkey : haloPmeIndex p d ix iy iz
        ∈ (unpackHaloWrites p (PackHaloExternal p grid bufInit)).map Prod.fst := by
      refine List.mem_map.mpr
        ⟨(haloPmeIndex p d ix iy iz,
          PackHaloExternal p grid bufInit d (haloPackedIndex p d ix iy iz)), ?_, rfl⟩
      rw [unpackHaloWrites, List.mem_flatMap]
      refine ⟨(ix, iy, iz), hmem, ?_⟩
      rw [List.mem_filterMap]
      refine ⟨d, by cases d <;> simp, by rw [if_pos hcond]⟩
    rw [UnpackHaloExternal, applyWrites_value_fun grid _ hvals, if_pos hkey]
  · intro k hk
    rw [UnpackHaloExternal, applyWrites_value_fun grid _ hvals, if_neg hk]

/-- C9 witness: the round trip restores a concrete halo point. -/
theorem packUnpackHaloExternal_roundtrip_witness :
    UnpackHaloExternal demoHaloParams
        (PackHaloExternal demoHaloParams demoGrid demoBufInit)
        (fun _ => 99) (haloPmeIndex demoHaloParams HaloDir.up 0 0 0)
      = demoGrid (haloPmeIndex demoHaloParams HaloDir.up 0 0 0) :=
  (packUnpackHaloExternal_roundtrip demoHaloParams demoGrid demoBufInit (fun _ => 99)).1
    HaloDir.up 0 0 0 (by decide) (by decide)

/-- C5: after `UnpackAndAddHaloInternal`, every local grid point in the work
domain equals its previous value plus its applicable received contributions,
each applied exactly once; grid points with no applicable overlap region, and
flat positions outside the work domain, keep their previous value. -/
theorem UnpackAndAddHaloInternal_correct (q : InternalHaloParams)
    (bufs : HaloDir → ℕ → ℚ) (grid : ℕ → ℚ) (hY : q.myGridY ≤ q.pmeSizeY) :
    (∀ ix iy iz, ix < q.myGridX → iy < q.myGridY → iz < q.pmeSizeZ →
      UnpackAndAddHaloInternal q bufs grid (pmeCellIndex q ix iy iz)
        = grid (pmeCellIndex q ix iy iz) + unpackAddContribution q bufs ix iy iz)
    ∧ (∀ ix iy iz, ix < q.myGridX → iy < q.myGridY → iz < q.pmeSizeZ →
        ¬ix < q.overlapSizeX →
        ¬(q.myGridX - q.overlapSizeX ≤ ix ∧ 0 < q.overlapUp) →
        ¬iy < q.overlapSizeY →
        ¬(q.myGridY - q.overlapSizeY ≤ iy ∧ 0 < q.overlapLeft) →
        UnpackAndAddHaloInternal q bufs grid (pmeCellIndex q ix iy iz)
          = grid (pmeCellIndex q ix iy iz))
    ∧ (∀ k, k ∉ (gridWorkItems q.myGridX q.myGridY q.pmeSizeZ).map
          (fun w => pmeCellIndex q w.1 w.2.1 w.2.2) →
        UnpackAndAddHaloInternal q bufs grid k = grid k) := by
  have hnd : ((gridWorkItems q.myGridX q.myGridY q.pmeSizeZ).map
      (fun w => pmeCellIndex q w.1 w.2.1 w.2.2)).Nodup := by
    refine List.Nodup.map_on ?_ (gridWorkItems_nodup _ _ _)
    intro x hx y hy hxy
    obtain ⟨hx1, hx2, hx3⟩ := mem_gridWorkItems.mp hx
    obtain ⟨hy1, hy2, hy3⟩ := mem_gridWorkItems.mp hy
    have hdx := dec3_encode q.pmeSizeY q.pmeSizeZ x.1 x.2.1 x.2.2
      (lt_of_lt_of_le hx2 hY) hx3
    have hdy := dec3_encode q.pmeSizeY q.pmeSizeZ y.1 y.2.1 y.2.2
      (lt_of_lt_of_le hy2 hY) hy3
    have h := congrArg (dec3 q.pmeSizeY q.pmeSizeZ) hxy
    rw [pmeCellIndex, pmeCellIndex, hdx, hdy] at h
    obtain ⟨x1, x2, x3⟩ := x
    obtain ⟨y1, y2, y3⟩ := y
    simpa using h
  have hpart1 : ∀ ix iy iz, ix < q.myGridX → iy < q.myGridY → iz < q.pmeSizeZ →
      UnpackAndAddHaloInternal q bufs grid (pmeCellIndex q ix iy iz)
        = grid (pmeCellIndex q ix iy iz) + unpackAddContribution q bufs ix iy iz := by
    intro ix iy iz h1 h2 h3
    exact applyAccum_mem _ _ _ hnd (ix, iy, iz)
      (mem_gridWorkItems.mpr ⟨h1, h2, h3⟩) grid
  refine ⟨hpart1, ?_, ?_⟩
  · intro ix iy iz h1 h2 h3 c1 c2 c3 c4
    rw [hpart1 ix iy iz h1 h2 h3]
    have hzero : unpackAddContribution q bufs ix iy iz = 0 := by
      rw [unpackAddContribution]
      rw [if_neg c1, if_neg c2, if_neg c3, if_neg c4,
        if_neg (fun h => c1 h.1), if_neg (fun h => c4 h.2),
        if_neg (fun h => c2 h.1), if_neg (fun h => c2 h.1)]
      ring
    rw [hzero, add_zero]
  · intro k hk
    exact applyAccum_not_mem _ _ _ grid k hk

/-- Filtering one grid's tagged events out of a concatenation of per-grid
segments yields exactly that grid's segment. -/
theorem filter_tagged_segments {α : Type _} (tr : List α) (g : ℕ) :
    ∀ n : ℕ,
      ((List.range n).flatMap fun t => tr.map fun ev => (t, ev)).filter
          (fun w => decide (w.1 = g))
        = if g < n then tr.map (fun ev => (g, ev)) else [] := by
  intro n
  induction n with
  | zero => simp
  | succ m ih =>
    rw [List.range_succ, List.flatMap_append, List.filter_append, ih]
    have hseg : (([m] : List ℕ).flatMap fun t => tr.map fun ev => (t, ev))
        = tr.map fun ev => (m, ev) := by simp
    rw [hseg, List.filter_map]
    by_cases hgm : g = m
    · subst hgm
      have hp : ((fun w : ℕ × α => decide (w.1 = g)) ∘ fun ev => (g, ev))
          = fun _ => true := by
        funext ev; simp
      rw [hp, if_neg (lt_irrefl g), List.filter_true, if_pos (Nat.lt_succ_self g)]
      simp
    · have hp : ((fun w : ℕ × α => decide (w.1 = g)) ∘ fun ev => (m, ev))
          = fun _ => false := by
        funext ev; simp [Ne.symm hgm]
      rw [hp, List.filter_false]
      by_cases hlt : g < m
      · rw [if_pos hlt, if_pos (by omega)]
        simp
      · rw [if_neg hlt, if_neg (by omega)]
        simp

/-- C4: in `pmeGpuGridHaloExchange`, for every grid index, the per-grid event
sequence posts all its MPI sends and receives, completes them with a single
`MPI_Waitall` whose count covers every posted request, and only then submits
the `UnpackAndAddHaloInternal` reduction kernel that consumes the received
halo data — for every decomposition size and halo-size configuration. -/
theorem pmeGpuGridHaloExchange_waitall_before_reduce
    (ngrids nnodesX nnodesY overlapUp overlapLeft g : ℕ) (hg : g < ngrids) :
    ((pmeGpuGridHaloExchangeTrace ngrids nnodesX nnodesY overlapUp overlapLeft).filter
        (fun w => decide (w.1 = g))).map Prod.snd
      = pmeGpuGridHaloExchangeGridTrace nnodesX nnodesY overlapUp overlapLeft
    ∧ haloOrderingOk (pmeGpuGridHaloExchangeGridTrace nnodesX nnodesY overlapUp overlapLeft)
        = true := by
  constructor
  · rw [pmeGpuGridHaloExchangeTrace, filter_tagged_segments, if_pos hg, List.map_map]
    simp
  · by_cases h1 : nnodesY = 1 <;> by_cases h2 : 1 < nnodesX <;>
      by_cases h3 : 1 < nnodesY <;> by_cases h4 : 0 < overlapUp <;>
        by_cases h5 : 0 < overlapLeft <;>
          simp [pmeGpuGridHaloExchangeGridTrace, gridHaloReqCount, receiveAndSendEvents,
            haloOrderingOk, isPostEvent, h1, h2, h3, h4, h5]

/-- C4 witness: the ordering property at a concrete configuration. -/
theorem pmeGpuGridHaloExchange_waitall_before_reduce_witness :
    ((pmeGpuGridHaloExchangeTrace 1 2 2 1 1).filter
        (fun w => decide (w.1 = 0))).map Prod.snd
      = pmeGpuGridHaloExchangeGridTrace 2 2 1 1
    ∧ haloOrderingOk (pmeGpuGridHaloExchangeGridTrace 2 2 1 1) = true :=
  pmeGpuGridHaloExchange_waitall_before_reduce 1 2 2 1 1 0 (by decide)

/-- C5 witness: a concrete corner grid point receives its up, left and
up-left contributions exactly once. -/
theorem UnpackAndAddHaloInternal_correct_witness :
    UnpackAndAddHaloInternal demoInternalParams demoBufs demoGrid
        (pmeCellIndex demoInternalParams 0 0 0)
      = demoGrid (pmeCellIndex demoInternalParams 0 0 0)
        + unpackAddContribution demoInternalParams demoBufs 0 0 0 :=
  (UnpackAndAddHaloInternal_correct demoInternalParams demoBufs demoGrid
    (by decide)).1 0 0 0 (by decide) (by decide) (by decide)

end Gromacs
